import Mathlib

/-!
Verification of the SimGuard Pro SIM-card tool.

The development shallowly embeds the parts of the repository that the
claims concern:

* frontend components present in the repository
  (`HexViewer.jsx`, `SMSManager.jsx`, `CloneTool.jsx`) are translated
  directly from their JavaScript source;
* the backend engine (clone / security analysis / eSIM conversion /
  import, a FastAPI server) is not part of the available sources — only
  its frontend callers are.  Definitions for it are modelled from the
  design document (`spec.md`) and are marked `Modelled from the spec:`
  in their doc comments.

JavaScript strings are modelled as `List Char`; `charCodeAt` is
`Char.toNat` (exact for basic-multilingual-plane, non-surrogate
characters, which is all the claims need).
-/

namespace HexViewer

/-- One uppercase hexadecimal digit, mirroring the net effect of
JavaScript `Number.prototype.toString(16)` followed by `toUpperCase()`
on a single digit value. -/
def hexDigitChar (n : Nat) : Char :=
  if n < 10 then Char.ofNat (48 + n) else Char.ofNat (55 + n)

/-- Division-loop worker for `natToHex`; `fuel` is a structural
termination bound (always called with enough fuel to finish). -/
def natToHexAux : Nat → Nat → List Char
  | 0, _ => []
  | fuel + 1, n =>
    if n < 16 then [hexDigitChar n]
    else natToHexAux fuel (n / 16) ++ [hexDigitChar (n % 16)]

/-- Uppercase hexadecimal rendering of a natural number, mirroring
`n.toString(16).toUpperCase()` in JavaScript: most significant digit
first, `0` rendered as `"0"`. -/
def natToHex (n : Nat) : List Char :=
  natToHexAux (n + 1) n

/-- JavaScript `String.prototype.padStart(len, c)`: prepend copies of
`c` until the length is at least `len`. -/
def padStart (len : Nat) (c : Char) (s : List Char) : List Char :=
  List.replicate (len - s.length) c ++ s

/-- JavaScript `String.prototype.padEnd(len, c)`: append copies of `c`
until the length is at least `len`. -/
def padEnd (len : Nat) (c : Char) (s : List Char) : List Char :=
  s ++ List.replicate (len - s.length) c

/-- JavaScript `Array.prototype.join(sep)` on a list of strings. -/
def joinSep (sep : List Char) : List (List Char) → List Char
  | [] => []
  | [s] => s
  | s :: rest => s ++ sep ++ joinSep sep rest

/-- `toHex` from `HexViewer.jsx`: per character, the char code rendered
as uppercase hexadecimal and left-padded with `0` to width 2
(`charCodeAt(i).toString(16).padStart(2, '0').toUpperCase()`). -/
def toHex (str : List Char) : List (List Char) :=
  str.map (fun c => padStart 2 '0' (natToHex c.toNat))

/-- One rendered row of the hex viewer. -/
structure Row where
  offset : List Char
  hex : List Char
  ascii : List Char
deriving DecidableEq, Repr

/-- The ASCII-column rendering of one character: printable ASCII
(char code between 32 and 126) is kept, everything else becomes a dot
(`code >= 32 && code <= 126 ? c : '.'`). -/
def asciiDot (c : Char) : Char :=
  if 32 ≤ c.toNat ∧ c.toNat ≤ 126 then c else '.'

/-- Builds the row starting at character index `i` of `data`, covering
the character chunk `chunk` (which is `data.slice(i, i + 16)`):
the offset is `i.toString(16).padStart(8, '0').toUpperCase()`, the hex
column is the 2-padded hex codes joined by spaces and padded with
spaces to width 47, the ASCII column maps each character through
`asciiDot`. -/
def mkRow (i : Nat) (chunk : List Char) : Row :=
  { offset := padStart 8 '0' (natToHex i)
    hex := padEnd 47 ' ' (joinSep [' '] (toHex chunk))
    ascii := chunk.map asciiDot }

/-- The row-building loop of `HexViewer.jsx`: starting at index 0 and
stepping by 16, slice off 16 characters at a time and build a row for
each chunk; `fuel` is a structural termination bound (the loop runs
at most `data.length` times). -/
def rowsFrom : Nat → Nat → List Char → List Row
  | _, _, [] => []
  | 0, _, _ => []
  | fuel + 1, i, data =>
    mkRow i (data.take 16) :: rowsFrom fuel (i + 16) (data.drop 16)

/-- The full list of rows rendered by `HexViewer` for input `data`
(empty and missing input both render no rows). -/
def rows (data : List Char) : List Row :=
  rowsFrom data.length 0 data

end HexViewer

namespace SMSManager

/-- An SMS record as consumed by `SMSManager.jsx` (the fields its
filter touches; strings are lists of characters). -/
structure Msg where
  id : Nat
  sender : List Char
  recipient : List Char
  message : List Char
  status : String
deriving DecidableEq, Repr

/-- JavaScript `String.prototype.toLowerCase`, character by
character. -/
def toLowerStr (s : List Char) : List Char :=
  s.map Char.toLower

/-- Does `s` start with `pre`? (helper for the substring test). -/
def startsWith : List Char → List Char → Bool
  | _, [] => true
  | [], _ :: _ => false
  | c :: cs, d :: ds => c == d && startsWith cs ds

/-- JavaScript `String.prototype.includes(sub)`: `sub` occurs as a
contiguous substring of `s`. -/
def includes : (s sub : List Char) → Bool
  | [], sub => sub.isEmpty
  | c :: cs, sub => startsWith (c :: cs) sub || includes cs sub

/-- The `matchesSearch` predicate of `filteredMessages` in
`SMSManager.jsx`: the lowered query occurs in the lowered sender,
recipient or message text. -/
def matchesSearch (searchQuery : List Char) (msg : Msg) : Bool :=
  includes (toLowerStr msg.sender) (toLowerStr searchQuery) ||
  includes (toLowerStr msg.recipient) (toLowerStr searchQuery) ||
  includes (toLowerStr msg.message) (toLowerStr searchQuery)

/-- The `matchesTab` predicate of `filteredMessages` in
`SMSManager.jsx`. -/
def matchesTab (activeTab : String) (msg : Msg) : Bool :=
  activeTab == "all" ||
  (activeTab == "inbox" && msg.status == "read") ||
  (activeTab == "sent" && msg.status == "sent") ||
  (activeTab == "draft" && msg.status == "draft")

/-- `filteredMessages` from `SMSManager.jsx`: keep the messages that
match both the search query and the active tab. -/
def filteredMessages (messages : List Msg) (searchQuery : List Char)
    (activeTab : String) : List Msg :=
  messages.filter (fun msg => matchesSearch searchQuery msg && matchesTab activeTab msg)

end SMSManager

namespace CloneTool

/-- The `cloneOptions` state of `CloneTool.jsx`: three booleans whose
object keys are `clone_contacts`, `clone_sms`, `clone_settings`. -/
structure CloneOptions where
  clone_contacts : Bool
  clone_sms : Bool
  clone_settings : Bool
deriving DecidableEq, Repr

/-- A JSON-ish value as it appears in the clone request body. -/
inductive Field where
  | str : String → Field
  | bool : Bool → Field
deriving DecidableEq, Repr

/-- The request body built by `startClone` in `CloneTool.jsx`,
key by key: it posts the object with `source_card_id` followed by the
spread of `cloneOptions`, whose keys are `clone_contacts`,
`clone_sms` and `clone_settings`. -/
def startCloneBody (sourceCard : String) (o : CloneOptions) :
    List (String × Field) :=
  [("source_card_id", Field.str sourceCard),
   ("clone_contacts", Field.bool o.clone_contacts),
   ("clone_sms", Field.bool o.clone_sms),
   ("clone_settings", Field.bool o.clone_settings)]

/-- The response fields that the step-3 rendering of `CloneTool.jsx`
reads off `cloneResult`: `cloned_card_id`, `contacts_cloned`,
`sms_cloned`. -/
def cloneResultFieldsRead : List String :=
  ["cloned_card_id", "contacts_cloned", "sms_cloned"]

end CloneTool

namespace Engine

/-- Risk levels used by the security analyzer, ordered
`low < medium < high < critical`. -/
inductive RiskLevel where
  | low
  | medium
  | high
  | critical
deriving DecidableEq, Repr

/-- Numeric rank of a risk level, for comparing and maximising
floors. -/
def RiskLevel.rank : RiskLevel → Nat
  | .low => 0
  | .medium => 1
  | .high => 2
  | .critical => 3

/-- The larger of two risk levels. -/
def RiskLevel.maxLevel (a b : RiskLevel) : RiskLevel :=
  if a.rank ≤ b.rank then b else a

/-- Raising a risk level by one tier, never above `critical`. -/
def RiskLevel.bump : RiskLevel → RiskLevel
  | .low => .medium
  | .medium => .high
  | .high => .critical
  | .critical => .critical

/-- Strength tier of the card's authentication algorithm,
ordered `legacyWeak < legacyModerate < modernStrong`. -/
inductive AuthTier where
  | legacyWeak
  | legacyModerate
  | modernStrong
deriving DecidableEq, Repr, Fintype

/-- Strength tier of the card's encryption,
ordered `noEncryption < weakStream < standard`. -/
inductive EncTier where
  | noEncryption
  | weakStream
  | standard
deriving DecidableEq, Repr, Fintype

/-- Modelled from the spec: rule 1 of the analyzer (the backend
`/api/analyze` handler is not among the available sources).
Legacy-weak gives risk floor `critical`, legacy-moderate gives floor
`high`, modern-strong gives floor `low`. -/
def authFloor : AuthTier → RiskLevel
  | .legacyWeak => .critical
  | .legacyModerate => .high
  | .modernStrong => .low

/-- Modelled from the spec: rule 2 of the analyzer. No encryption
raises the floor to at least `critical`, a weak stream cipher to at
least `high`, standard encryption contributes `low`. -/
def encFloor : EncTier → RiskLevel
  | .noEncryption => .critical
  | .weakStream => .high
  | .standard => .low

/-- The analysis-relevant classification of a card:
`(auth_algorithm tier, encryption_type tier, ki present?, opc
present?)`. -/
structure CardClass where
  auth : AuthTier
  enc : EncTier
  kiPresent : Bool
  opcPresent : Bool
deriving DecidableEq, Repr, Fintype

/-- Modelled from the spec: rules 1–4 of the analyzer. The final
risk level is the maximum of the two rule floors, raised one further
tier (capped at `critical`) when an extracted `ki` or `opc` is
present. -/
def riskLevel (c : CardClass) : RiskLevel :=
  let base := (authFloor c.auth).maxLevel (encFloor c.enc)
  if c.kiPresent || c.opcPresent then base.bump else base

/-- Modelled from the spec: rule 5 of the analyzer. One
human-readable finding per rule that contributed a non-`low`
floor, in rule order. -/
def vulnerabilities (c : CardClass) : List String :=
  (if authFloor c.auth ≠ RiskLevel.low then
    ["Weak authentication algorithm in use"] else []) ++
  (if encFloor c.enc ≠ RiskLevel.low then
    ["Weak or missing encryption"] else []) ++
  (if c.kiPresent || c.opcPresent then
    ["Extracted long-term key material present"] else [])

/-- Modelled from the spec: rule 6 of the analyzer. One
recommendation per unresolved vulnerability, in the same order. -/
def recommendations (c : CardClass) : List String :=
  (if authFloor c.auth ≠ RiskLevel.low then
    ["Upgrade to a modern authentication algorithm"] else []) ++
  (if encFloor c.enc ≠ RiskLevel.low then
    ["Enable standard encryption"] else []) ++
  (if c.kiPresent || c.opcPresent then
    ["Re-issue the card; its credentials are exposed"] else [])

/-- An analysis record (§3 of the design document). -/
structure Analysis where
  id : Nat
  card_id : String
  risk_level : RiskLevel
  vulnerabilities : List String
  recommendations : List String
  timestamp : Nat
deriving DecidableEq, Repr

/-- Modelled from the spec: the `Analyze` operation. The verdict
fields are computed from the card classification alone; the record id
and timestamp come from the call time, and the prior analysis history
(append-only) is carried but never consulted for the verdict. -/
def analyze (cardId : String) (c : CardClass) (time : Nat)
    (history : List Analysis) : Analysis :=
  { id := history.length
    card_id := cardId
    risk_level := riskLevel c
    vulnerabilities := vulnerabilities c
    recommendations := recommendations c
    timestamp := time }

end Engine

namespace Engine

/-- A card record (§3 of the design document). The ICCID is kept as
its list of decimal digits. -/
structure Card where
  id : String
  iccid : List Nat
  imsi : String
  msisdn : String
  mcc : String
  mnc : String
  spn : String
  card_type : String
  ki : Option String
  opc : Option String
  created_at : Nat
deriving DecidableEq, Repr

/-- A contact record (§3 of the design document). -/
structure Contact where
  id : Nat
  card_id : String
  index : Nat
  name : Option String
  number : String
  grp : Option String
  email : Option String
deriving DecidableEq, Repr

/-- An SMS record (§3 of the design document). -/
structure SMSRec where
  id : Nat
  card_id : String
  sender : String
  recipient : String
  message : String
  status : String
  timestamp : Nat
deriving DecidableEq, Repr

/-- The entity repository state: typed storage for cards, contacts
and SMS records (§4.1 of the design document). -/
structure RepoState where
  cards : List Card
  contacts : List Contact
  smss : List SMSRec
deriving DecidableEq, Repr

/-- `Get` on cards: look a card up by id. -/
def findCard (st : RepoState) (cardId : String) : Option Card :=
  st.cards.find? (fun c => c.id == cardId)

/-- The error kinds of §7 of the design document. -/
inductive Err where
  | notFound
  | validation
  | conflict
  | internal
deriving DecidableEq, Repr

end Engine

namespace Engine

/-- Digits of `n` in base `b` (`b ≥ 2`), most significant first;
`0` renders as `[0]`. -/
def baseDigits (b n : Nat) (hb : 2 ≤ b := by norm_num) : List Nat :=
  if h : n < b then [n]
  else
    have : n / b < n := Nat.div_lt_self (by omega) (by omega)
    baseDigits b (n / b) hb ++ [n % b]
termination_by n

/-- Modelled from the spec: the canonical string the profile encoder
hashes, built from `(card.iccid, card.imsi, profile_name, carrier)`
(the backend `/api/esim/convert` handler is not among the available
sources). -/
def canonicalString (iccid : List Nat) (imsi profileName carrier : String) :
    List Char :=
  (iccid.map (fun d => Char.ofNat (48 + d))) ++ ['|'] ++ imsi.toList ++
    ['|'] ++ profileName.toList ++ ['|'] ++ carrier.toList

/-- Modelled from the spec: a deterministic one-way content hash of the
canonical string (the spec fixes no particular hash; a 32-bit
polynomial rolling hash stands in for it). -/
def contentHash (s : List Char) : Nat :=
  s.foldl (fun acc c => (acc * 31 + c.toNat) % 4294967296) 7

/-- One base-36 digit as a character (`0`–`9`, then `A`–`Z`). -/
def base36Char (n : Nat) : Char :=
  if n < 10 then Char.ofNat (48 + n) else Char.ofNat (55 + n)

/-- Base-36 rendering of a natural number, for the human-transcribable
matching identifier. -/
def base36 (n : Nat) : List Char :=
  (baseDigits 36 n).map base36Char

/-- Modelled from the spec: the configured constant server address of
the activation-code grammar. -/
def serverAddress : List Char :=
  "smdp.simguard.local".toList

/-- Modelled from the spec: the activation code
`<version>$<server-address>$<matching-id>` where the matching id is
the base-36 rendering of the content hash of the canonical string. -/
def activationCode (iccid : List Nat) (imsi profileName carrier : String) :
    List Char :=
  '1' :: '$' :: serverAddress ++ '$' ::
    base36 (contentHash (canonicalString iccid imsi profileName carrier))

/-- A profile record (§3 of the design document). -/
structure Profile where
  id : Nat
  card_id : String
  profile_name : String
  carrier : String
  qr_data : List Char
  activation_code : List Char
  status : String
  timestamp : Nat
deriving DecidableEq, Repr

/-- Modelled from the spec: the `Convert` operation. The only failure
mode is a missing source card; on success the profile is built with
the QR payload equal to the activation code and status `ready`, with
id and timestamp taken from the call. -/
def convert (st : RepoState) (cardId profileName carrier : String)
    (freshId time : Nat) : Except Err Profile :=
  match findCard st cardId with
  | none => .error .notFound
  | some card =>
      .ok { id := freshId
            card_id := cardId
            profile_name := profileName
            carrier := carrier
            qr_data := activationCode card.iccid card.imsi profileName carrier
            activation_code := activationCode card.iccid card.imsi profileName carrier
            status := "ready"
            timestamp := time }

end Engine

namespace Engine

/-- Luhn doubling of one digit: double it and subtract 9 when the
result exceeds 9. -/
def luhnDouble (d : Nat) : Nat :=
  if 9 < d * 2 then d * 2 - 9 else d * 2

/-- Luhn sum over a digit list given rightmost-first, where `dbl`
says whether the first (rightmost) digit of the list is in a doubled
position. -/
def luhnSumRev : List Nat → Bool → Nat
  | [], _ => 0
  | d :: rest, dbl => (if dbl then luhnDouble d else d) + luhnSumRev rest (!dbl)

/-- A digit string passes the Luhn check: doubling every second digit
from the right (the rightmost digit itself undoubled), the adjusted
sum is divisible by 10. -/
def luhnValid (digits : List Nat) : Bool :=
  luhnSumRev digits.reverse false % 10 == 0

/-- The Luhn check digit to append to `body` (every second digit of
`body` from its right end is doubled once the check digit is
appended). -/
def luhnCheckDigit (body : List Nat) : Nat :=
  (10 - luhnSumRev body.reverse true % 10) % 10

/-- Fixed-width decimal rendering of `k`: the `len` decimal digits of
`k`, zero-padded, most significant first. -/
def padDecimal (len k : Nat) : List Nat :=
  (List.range len).map (fun i => k / 10 ^ (len - 1 - i) % 10)

/-- Modelled from the spec: candidate number `k` for the clone's new
ICCID — the source's issuer prefix, then `k` as a fixed-width serial
suffix, then the recomputed Luhn check digit. -/
def candidateIccid (pre : List Nat) (serialLen k : Nat) : List Nat :=
  pre ++ padDecimal serialLen k ++
    [luhnCheckDigit (pre ++ padDecimal serialLen k)]

/-- Modelled from the spec: derivation of a new ICCID distinct from
all existing ICCIDs — try serial numbers `0, 1, …` and keep the first
candidate that collides with no existing ICCID (the backend
`/api/clone` handler is not among the available sources). -/
def freshIccid (pre : List Nat) (serialLen : Nat)
    (existing : List (List Nat)) : Option (List Nat) :=
  match (List.range (existing.length + 1)).find?
      (fun k => !(existing.contains (candidateIccid pre serialLen k))) with
  | none => none
  | some k => some (candidateIccid pre serialLen k)

/-- The options of the clone operation (§4.2). -/
structure CloneOpts where
  copyContacts : Bool
  copySMS : Bool
  copySettings : Bool
deriving DecidableEq, Repr

/-- The result of a successful clone (§4.2 / §6). -/
structure CloneResult where
  newCardId : String
  contactsCloned : Nat
  smsCloned : Nat
deriving DecidableEq, Repr

/-- A single repository write issued during a clone. -/
inductive Write where
  | card : Card → Write
  | contact : Contact → Write
  | sms : SMSRec → Write
deriving DecidableEq, Repr

/-- Applying one write to the repository state. -/
def applyWrite (st : RepoState) : Write → RepoState
  | .card c => { st with cards := st.cards ++ [c] }
  | .contact c => { st with contacts := st.contacts ++ [c] }
  | .sms s => { st with smss := st.smss ++ [s] }

/-- Running a list of writes with an injected fault: `fault = some i`
makes the `i`-th write fail (counting from 0), `none` lets every
write succeed. -/
def runWrites (st : RepoState) : List Write → Option Nat → Except Err RepoState
  | [], _ => .ok st
  | _ :: _, some 0 => .error .internal
  | w :: ws, some (n + 1) => runWrites (applyWrite st w) ws (some n)
  | w :: ws, none => runWrites (applyWrite st w) ws none

/-- Modelled from the spec: the new card built in step 2 of the clone
algorithm — descriptive fields copied, fresh id and ICCID, and the
extracted `ki`/`opc` copied only when `copySettings` is set. -/
def cloneCard (src : Card) (newId : String) (newIccid : List Nat)
    (opts : CloneOpts) (time : Nat) : Card :=
  { src with
    id := newId
    iccid := newIccid
    ki := if opts.copySettings then src.ki else none
    opc := if opts.copySettings then src.opc else none
    created_at := time }

/-- Modelled from the spec: the dependent-copy writes of steps 3–4 —
every contact of the source card, preserving `index` and fields under
fresh ids, then every SMS, preserving `timestamp` and `status` under
fresh ids. -/
def cloneWrites (st : RepoState) (srcId newId : String)
    (opts : CloneOpts) (idBase : Nat) : List Write :=
  (if opts.copyContacts then
    ((st.contacts.filter (fun c => c.card_id == srcId)).enum.map
      (fun p => Write.contact { p.2 with id := idBase + p.1, card_id := newId }))
   else []) ++
  (if opts.copySMS then
    ((st.smss.filter (fun s => s.card_id == srcId)).enum.map
      (fun p => Write.sms { p.2 with id := idBase + st.contacts.length + p.1, card_id := newId }))
   else [])

/-- Modelled from the spec: the `Clone` operation (§4.2). Load the
source card (else `NotFound`); reject a malformed ICCID shorter than
19 or longer than 20 digits (`Validation`); derive a fresh ICCID from
the first 7 digits of the source's ICCID; run the card write and the
requested dependent-copy writes; and per step 5 commit them as one
atomic unit — on any write failure the original state is returned
unchanged. -/
def clone (st : RepoState) (srcId : String) (opts : CloneOpts)
    (newId : String) (idBase : Nat) (fault : Option Nat) (time : Nat) :
    Except Err CloneResult × RepoState :=
  match findCard st srcId with
  | none => (.error .notFound, st)
  | some src =>
    if src.iccid.length < 19 ∨ 20 < src.iccid.length then
      (.error .validation, st)
    else
      match freshIccid (src.iccid.take 7) (src.iccid.length - 8)
          (st.cards.map (fun c => c.iccid)) with
      | none => (.error .internal, st)
      | some newIccid =>
        let writes := Write.card (cloneCard src newId newIccid opts time) ::
          cloneWrites st srcId newId opts idBase
        match runWrites st writes fault with
        | .error e => (.error e, st)
        | .ok st1 =>
          (.ok { newCardId := newId
                 contactsCloned :=
                   if opts.copyContacts then
                     (st.contacts.filter (fun c => c.card_id == srcId)).length
                   else 0
                 smsCloned :=
                   if opts.copySMS then
                     (st.smss.filter (fun s => s.card_id == srcId)).length
                   else 0 }, st1)

end Engine

namespace Engine

/-- A contact entry of an import document: every field optional at
the framing level; `number` is the required one. -/
structure ImportContact where
  name : Option String
  number : Option String
  grp : Option String
  email : Option String
deriving DecidableEq, Repr

/-- An SMS entry of an import document: `recipient` and `message` are
the required fields. -/
structure ImportSMS where
  sender : Option String
  recipient : Option String
  message : Option String
  status : Option String
  timestamp : Option Nat
deriving DecidableEq, Repr

/-- An import document: a list of contact entries and a list of SMS
entries. -/
structure ImportDoc where
  contacts : List ImportContact
  sms : List ImportSMS
deriving DecidableEq, Repr

/-- The import mode: everything, contacts only, or SMS only. -/
inductive ImportMode where
  | all
  | contactsOnly
  | smsOnly
deriving DecidableEq, Repr

/-- A contact entry passes validation when its required field
`number` is present. -/
def validContact (c : ImportContact) : Bool :=
  c.number.isSome

/-- An SMS entry passes validation when its required fields
`recipient` and `message` are both present. -/
def validSMS (s : ImportSMS) : Bool :=
  s.recipient.isSome && s.message.isSome

/-- The contact entries an import in mode `mode` considers. -/
def consideredContacts (doc : ImportDoc) (mode : ImportMode) :
    List ImportContact :=
  if mode = ImportMode.all ∨ mode = ImportMode.contactsOnly then doc.contacts
  else []

/-- The SMS entries an import in mode `mode` considers. -/
def consideredSMS (doc : ImportDoc) (mode : ImportMode) : List ImportSMS :=
  if mode = ImportMode.all ∨ mode = ImportMode.smsOnly then doc.sms
  else []

/-- The contact record written for a valid import entry. -/
def mkImportedContact (cardId : String) (idBase baseIndex : Nat)
    (p : Nat × ImportContact) : Contact :=
  { id := idBase + p.1
    card_id := cardId
    index := baseIndex + p.1 + 1
    name := p.2.name
    number := p.2.number.getD ""
    grp := p.2.grp
    email := p.2.email }

/-- The SMS record written for a valid import entry. -/
def mkImportedSMS (cardId : String) (idBase time : Nat)
    (p : Nat × ImportSMS) : SMSRec :=
  { id := idBase + p.1
    card_id := cardId
    sender := p.2.sender.getD ""
    recipient := p.2.recipient.getD ""
    message := p.2.message.getD ""
    status := p.2.status.getD "unread"
    timestamp := p.2.timestamp.getD time }

/-- The counts an import reports. -/
structure ImportCounts where
  contacts_imported : Nat
  sms_imported : Nat
deriving DecidableEq, Repr

/-- Modelled from the spec: the import collaborator (§6; the backend
`/api/import` handler is not among the available sources). The target
card must exist (`NotFound` otherwise); each considered contact entry
missing `number` and each considered SMS entry missing `recipient` or
`message` is skipped, every other entry is written; no invalid entry
aborts the batch, and the reported counts are the counts of records
written. -/
def importData (st : RepoState) (cardId : String) (doc : ImportDoc)
    (mode : ImportMode) (idBase time : Nat) :
    Except Err (ImportCounts × RepoState) :=
  match findCard st cardId with
  | none => .error .notFound
  | some _ =>
    let keptContacts := (consideredContacts doc mode).filter validContact
    let keptSMS := (consideredSMS doc mode).filter validSMS
    let baseIndex := (st.contacts.filter (fun c => c.card_id == cardId)).length
    let newContacts := keptContacts.enum.map
      (mkImportedContact cardId idBase baseIndex)
    let newSMS := keptSMS.enum.map
      (mkImportedSMS cardId (idBase + keptContacts.length) time)
    .ok ({ contacts_imported := keptContacts.length
           sms_imported := keptSMS.length },
         { st with
           contacts := st.contacts ++ newContacts
           smss := st.smss ++ newSMS })

end Engine

namespace Engine

/-- C1: for every card, the Analysis returned by Analyze has
`risk_level = critical` whenever the card's `auth_algorithm`
classifies as legacy-weak or its `encryption_type` classifies as
none, regardless of the other attributes. -/
theorem analyze_critical_of_weak_auth_or_no_enc
    (cardId : String) (c : CardClass) (time : Nat) (history : List Analysis)
    (h : c.auth = AuthTier.legacyWeak ∨ c.enc = EncTier.noEncryption) :
    (analyze cardId c time history).risk_level = RiskLevel.critical := by
  have key : ∀ d : CardClass,
      d.auth = AuthTier.legacyWeak ∨ d.enc = EncTier.noEncryption →
      riskLevel d = RiskLevel.critical := by decide
  simpa [analyze] using key c h

/-- Witness for C1 at a concrete card classification. -/
theorem analyze_critical_of_weak_auth_or_no_enc_witness :
    (analyze "card-1"
        { auth := AuthTier.legacyWeak, enc := EncTier.standard,
          kiPresent := false, opcPresent := false }
        0 []).risk_level = RiskLevel.critical :=
  analyze_critical_of_weak_auth_or_no_enc "card-1" _ 0 [] (Or.inl rfl)

/-- C2: Analyze is deterministic — two calls on cards with the same
`(auth_algorithm, encryption_type, ki present?, opc present?)`
classification return the same risk level, vulnerability list and
recommendation list, whatever the call times and prior analysis
histories were. -/
theorem analyze_deterministic
    (cardId1 cardId2 : String) (c : CardClass) (t1 t2 : Nat)
    (h1 h2 : List Analysis) :
    (analyze cardId1 c t1 h1).risk_level = (analyze cardId2 c t2 h2).risk_level ∧
    (analyze cardId1 c t1 h1).vulnerabilities =
      (analyze cardId2 c t2 h2).vulnerabilities ∧
    (analyze cardId1 c t1 h1).recommendations =
      (analyze cardId2 c t2 h2).recommendations :=
  ⟨rfl, rfl, rfl⟩

/-- C6: the vulnerability list of an analysis is empty exactly when
its risk level is `low`. -/
theorem analyze_vulnerabilities_empty_iff_low
    (cardId : String) (c : CardClass) (time : Nat) (history : List Analysis) :
    (analyze cardId c time history).vulnerabilities = [] ↔
      (analyze cardId c time history).risk_level = RiskLevel.low := by
  have key : ∀ d : CardClass,
      (vulnerabilities d = [] ↔ riskLevel d = RiskLevel.low) := by decide
  simpa [analyze] using key c

end Engine

namespace Engine

/-- C3: Convert is idempotent — converting the same card (unchanged,
i.e. the same card record is found under the id in both repository
states) with the same profile name and carrier yields byte-identical
`qr_data` and `activation_code`, whatever the fresh profile ids and
call times are. -/
theorem convert_idempotent
    (st1 st2 : RepoState) (cardId profileName carrier : String) (card : Card)
    (id1 id2 t1 t2 : Nat) (p1 p2 : Profile)
    (hc1 : findCard st1 cardId = some card)
    (hc2 : findCard st2 cardId = some card)
    (e1 : convert st1 cardId profileName carrier id1 t1 = Except.ok p1)
    (e2 : convert st2 cardId profileName carrier id2 t2 = Except.ok p2) :
    p1.qr_data = p2.qr_data ∧ p1.activation_code = p2.activation_code := by
  rw [convert, hc1] at e1
  rw [convert, hc2] at e2
  cases e1
  cases e2
  exact ⟨rfl, rfl⟩

/-- A concrete card used by the witnesses below. -/
def testCard : Card :=
  { id := "c1"
    iccid := [8, 9, 0, 1, 4, 1, 0, 3, 2, 1, 1, 1, 1, 8, 5, 1, 0, 7, 2]
    imsi := "310150123456789"
    msisdn := "+15551234567"
    mcc := "310"
    mnc := "150"
    spn := "TestTel"
    card_type := "nano"
    ki := some "0123456789ABCDEF0123456789ABCDEF"
    opc := none
    created_at := 0 }

/-- A concrete repository state holding just `testCard`. -/
def testState : RepoState :=
  { cards := [testCard], contacts := [], smss := [] }

/-- The profile a conversion of `testCard` produces (fields written
out so the conversion equations below hold definitionally). -/
def testProfile (freshId time : Nat) : Profile :=
  { id := freshId
    card_id := "c1"
    profile_name := "Test"
    carrier := "carrierX"
    qr_data := activationCode testCard.iccid testCard.imsi "Test" "carrierX"
    activation_code := activationCode testCard.iccid testCard.imsi "Test" "carrierX"
    status := "ready"
    timestamp := time }

/-- Witness for C3: two concrete conversions of the same card with
different fresh ids and times give identical payloads. -/
theorem convert_idempotent_witness :
    (testProfile 0 0).qr_data = (testProfile 1 5).qr_data ∧
    (testProfile 0 0).activation_code = (testProfile 1 5).activation_code :=
  convert_idempotent testState testState "c1" "Test" "carrierX" testCard
    0 1 0 5 (testProfile 0 0) (testProfile 1 5) (by decide) (by decide)
    rfl rfl

end Engine

namespace Engine

/-- C8: import is partial-failure tolerant — whenever the target card
exists, the import succeeds regardless of invalid entries in the
document; exactly the considered contact entries carrying their
required `number` and the considered SMS entries carrying `recipient`
and `message` are written; and the reported counts equal the numbers
of contact and SMS records actually written. -/
theorem importData_partial_failure_tolerant
    (st : RepoState) (cardId : String) (doc : ImportDoc) (mode : ImportMode)
    (idBase time : Nat) (card : Card)
    (h : findCard st cardId = some card) :
    ∃ counts st',
      importData st cardId doc mode idBase time = Except.ok (counts, st') ∧
      counts.contacts_imported = st'.contacts.length - st.contacts.length ∧
      counts.sms_imported = st'.smss.length - st.smss.length ∧
      counts.contacts_imported =
        ((consideredContacts doc mode).filter validContact).length ∧
      counts.sms_imported =
        ((consideredSMS doc mode).filter validSMS).length := by
  simp only [importData, h]
  exact ⟨_, _, rfl, by simp, by simp, rfl, rfl⟩

/-- The one-contact import document of the spec's scenario:
`name` missing, `number` present. -/
def scenarioDoc : ImportDoc :=
  { contacts := [{ name := none, number := some "+1", grp := none, email := none }]
    sms := [] }

/-- Witness for C8: importing `scenarioDoc` into the concrete test
state succeeds and reports `contacts_imported = 1`. -/
theorem importData_partial_failure_tolerant_witness :
    (∃ counts st',
      importData testState "c1" scenarioDoc ImportMode.all 7 3 =
        Except.ok (counts, st') ∧
      counts.contacts_imported = st'.contacts.length - testState.contacts.length ∧
      counts.sms_imported = st'.smss.length - testState.smss.length ∧
      counts.contacts_imported =
        ((consideredContacts scenarioDoc ImportMode.all).filter validContact).length ∧
      counts.sms_imported =
        ((consideredSMS scenarioDoc ImportMode.all).filter validSMS).length) ∧
    ((consideredContacts scenarioDoc ImportMode.all).filter validContact).length = 1 :=
  ⟨importData_partial_failure_tolerant testState "c1" scenarioDoc ImportMode.all
      7 3 testCard (by decide),
   by decide⟩

end Engine

namespace Engine

/-- The card records a list of writes creates. -/
def writesCards (ws : List Write) : List Card :=
  ws.filterMap fun w => match w with
    | .card c => some c
    | _ => none

/-- The contact records a list of writes creates. -/
def writesContacts (ws : List Write) : List Contact :=
  ws.filterMap fun w => match w with
    | .contact c => some c
    | _ => none

/-- The SMS records a list of writes creates. -/
def writesSmss (ws : List Write) : List SMSRec :=
  ws.filterMap fun w => match w with
    | .sms s => some s
    | _ => none

lemma foldl_applyWrite (ws : List Write) (st : RepoState) :
    (ws.foldl applyWrite st).cards = st.cards ++ writesCards ws ∧
    (ws.foldl applyWrite st).contacts = st.contacts ++ writesContacts ws ∧
    (ws.foldl applyWrite st).smss = st.smss ++ writesSmss ws := by
  induction ws generalizing st with
  | nil => simp [writesCards, writesContacts, writesSmss]
  | cons w ws ih =>
    obtain ⟨ih1, ih2, ih3⟩ := ih (applyWrite st w)
    cases w <;>
      simp_all [writesCards, writesContacts, writesSmss, applyWrite,
        List.filterMap_cons]

lemma runWrites_ok (ws : List Write) (st st1 : RepoState) (fault : Option Nat)
    (h : runWrites st ws fault = Except.ok st1) :
    st1 = ws.foldl applyWrite st := by
  induction ws generalizing st fault with
  | nil => simp [runWrites] at h; simp [h]
  | cons w ws ih =>
    match fault with
    | none => exact ih (applyWrite st w) none h
    | some 0 => simp [runWrites] at h
    | some (n + 1) => exact ih (applyWrite st w) (some n) h

lemma writesCards_cloneWrites (st : RepoState) (srcId newId : String)
    (opts : CloneOpts) (idBase : Nat) :
    writesCards (cloneWrites st srcId newId opts idBase) = [] := by
  unfold cloneWrites writesCards
  cases hc : opts.copyContacts <;> cases hs : opts.copySMS <;>
    simp [List.filterMap_append, List.filterMap_map, Function.comp]

lemma writesContacts_nil : writesContacts [] = [] := rfl

lemma writesSmss_nil : writesSmss [] = [] := rfl

lemma writesContacts_append (ws1 ws2 : List Write) :
    writesContacts (ws1 ++ ws2) = writesContacts ws1 ++ writesContacts ws2 :=
  List.filterMap_append ws1 ws2 _

lemma writesSmss_append (ws1 ws2 : List Write) :
    writesSmss (ws1 ++ ws2) = writesSmss ws1 ++ writesSmss ws2 :=
  List.filterMap_append ws1 ws2 _

lemma writesContacts_contactWrites {α : Type} (g : α → Contact) (l : List α) :
    writesContacts (l.map (fun a => Write.contact (g a))) = l.map g := by
  induction l with
  | nil => rfl
  | cons a l ih => simp only [List.map_cons, writesContacts, List.filterMap_cons] at *; simp [ih]

lemma writesContacts_smsWrites {α : Type} (g : α → SMSRec) (l : List α) :
    writesContacts (l.map (fun a => Write.sms (g a))) = [] := by
  induction l with
  | nil => rfl
  | cons a l ih => simp only [List.map_cons, writesContacts, List.filterMap_cons] at *; simp [ih]

lemma writesSmss_smsWrites {α : Type} (g : α → SMSRec) (l : List α) :
    writesSmss (l.map (fun a => Write.sms (g a))) = l.map g := by
  induction l with
  | nil => rfl
  | cons a l ih => simp only [List.map_cons, writesSmss, List.filterMap_cons] at *; simp [ih]

lemma writesSmss_contactWrites {α : Type} (g : α → Contact) (l : List α) :
    writesSmss (l.map (fun a => Write.contact (g a))) = [] := by
  induction l with
  | nil => rfl
  | cons a l ih => simp only [List.map_cons, writesSmss, List.filterMap_cons] at *; simp [ih]

lemma length_writesContacts_cloneWrites (st : RepoState) (srcId newId : String)
    (opts : CloneOpts) (idBase : Nat) :
    (writesContacts (cloneWrites st srcId newId opts idBase)).length =
      if opts.copyContacts then
        (st.contacts.filter (fun c => c.card_id == srcId)).length
      else 0 := by
  cases hc : opts.copyContacts <;> cases hs : opts.copySMS <;>
    simp [cloneWrites, hc, hs, writesContacts_append,
      writesContacts_contactWrites, writesContacts_smsWrites, List.enum_length,
      writesContacts_nil]

lemma length_writesSmss_cloneWrites (st : RepoState) (srcId newId : String)
    (opts : CloneOpts) (idBase : Nat) :
    (writesSmss (cloneWrites st srcId newId opts idBase)).length =
      if opts.copySMS then
        (st.smss.filter (fun s => s.card_id == srcId)).length
      else 0 := by
  cases hc : opts.copyContacts <;> cases hs : opts.copySMS <;>
    simp [cloneWrites, hc, hs, writesSmss_append,
      writesSmss_smsWrites, writesSmss_contactWrites, List.enum_length,
      writesSmss_nil]

end Engine

namespace Engine

lemma writesCards_cons_card (c : Card) (ws : List Write) :
    writesCards (Write.card c :: ws) = c :: writesCards ws := by
  simp [writesCards, List.filterMap_cons]

lemma writesContacts_cons_card (c : Card) (ws : List Write) :
    writesContacts (Write.card c :: ws) = writesContacts ws := by
  simp [writesContacts, List.filterMap_cons]

lemma writesSmss_cons_card (c : Card) (ws : List Write) :
    writesSmss (Write.card c :: ws) = writesSmss ws := by
  simp [writesSmss, List.filterMap_cons]

/-- C4: Clone is atomic — for every invocation (including any
injected write fault), either the call fails and the repository state
is exactly the original one (no new card, contact or SMS record is
visible), or it succeeds and the new card together with all requested
dependents (as counted by the returned result) exists. -/
theorem clone_atomic (st : RepoState) (srcId : String) (opts : CloneOpts)
    (newId : String) (idBase : Nat) (fault : Option Nat) (time : Nat) :
    ((clone st srcId opts newId idBase fault time).2 = st ∧
      ∃ e, (clone st srcId opts newId idBase fault time).1 = Except.error e) ∨
    (∃ r nc,
      (clone st srcId opts newId idBase fault time).1 = Except.ok r ∧
      (clone st srcId opts newId idBase fault time).2.cards = st.cards ++ [nc] ∧
      (clone st srcId opts newId idBase fault time).2.contacts.length =
        st.contacts.length + r.contactsCloned ∧
      (clone st srcId opts newId idBase fault time).2.smss.length =
        st.smss.length + r.smsCloned) := by
  unfold clone
  cases hsrc : findCard st srcId with
  | none => left; simp [hsrc]
  | some src =>
    simp only [hsrc]
    by_cases hlen : src.iccid.length < 19 ∨ 20 < src.iccid.length
    · left; rw [if_pos hlen]; simp [hsrc]
    · rw [if_neg hlen]
      cases hfresh : freshIccid (src.iccid.take 7) (src.iccid.length - 8)
          (st.cards.map fun c => c.iccid) with
      | none => left; simp [hsrc, hfresh]
      | some newIccid =>
        simp only [hfresh]
        cases hrw : runWrites st
            (Write.card (cloneCard src newId newIccid opts time) ::
              cloneWrites st srcId newId opts idBase) fault with
        | error e => left; simp [hsrc, hfresh, hrw]
        | ok st1 =>
          simp only [hrw]
          refine Or.inr ⟨_, cloneCard src newId newIccid opts time, rfl, ?_, ?_, ?_⟩
          all_goals
            have hst1 := runWrites_ok _ _ _ _ hrw
            obtain ⟨h1, h2, h3⟩ :=
              foldl_applyWrite
                (Write.card (cloneCard src newId newIccid opts time) ::
                  cloneWrites st srcId newId opts idBase) st
            subst hst1
          · rw [h1, writesCards_cons_card, writesCards_cloneWrites]
          · rw [h2, writesContacts_cons_card, List.length_append,
              length_writesContacts_cloneWrites]
          · rw [h3, writesSmss_cons_card, List.length_append,
              length_writesSmss_cloneWrites]

end Engine

namespace Engine

lemma luhnValid_append_check (body : List Nat) :
    luhnValid (body ++ [luhnCheckDigit body]) = true := by
  unfold luhnValid luhnCheckDigit
  rw [List.reverse_append]
  simp [luhnSumRev, List.reverse_singleton]
  omega

lemma freshIccid_spec (pre : List Nat) (serialLen : Nat)
    (existing : List (List Nat)) (icc : List Nat)
    (h : freshIccid pre serialLen existing = some icc) :
    icc ∉ existing ∧ ∃ k, icc = candidateIccid pre serialLen k := by
  unfold freshIccid at h
  cases hf : (List.range (existing.length + 1)).find?
      (fun k => !(existing.contains (candidateIccid pre serialLen k))) with
  | none => rw [hf] at h; cases h
  | some k =>
    rw [hf] at h
    cases h
    have hp := List.find?_some hf
    refine ⟨?_, k, rfl⟩
    simpa using hp

/-- The card records visible in `st1` that were not present in `st`
(the records an invocation appended). -/
def newCards (st st1 : RepoState) : List Card :=
  st1.cards.drop st.cards.length

/-- C5: every card produced by a successful Clone has an ICCID that
passes the Luhn check, shares the source card's 7-digit issuer prefix
and differs from the source card's ICCID. -/
theorem clone_luhn_valid
    (st : RepoState) (srcId : String) (opts : CloneOpts) (newId : String)
    (idBase : Nat) (fault : Option Nat) (time : Nat) (src : Card)
    (r : CloneResult)
    (hsrc : findCard st srcId = some src)
    (hok : (clone st srcId opts newId idBase fault time).1 = Except.ok r) :
    ∀ nc ∈ newCards st (clone st srcId opts newId idBase fault time).2,
      luhnValid nc.iccid = true ∧
      nc.iccid.take 7 = src.iccid.take 7 ∧
      nc.iccid ≠ src.iccid := by
  unfold clone at hok ⊢
  simp only [hsrc] at hok ⊢
  by_cases hlen : src.iccid.length < 19 ∨ 20 < src.iccid.length
  · rw [if_pos hlen] at hok; cases hok
  · rw [if_neg hlen] at hok ⊢
    cases hfresh : freshIccid (src.iccid.take 7) (src.iccid.length - 8)
        (st.cards.map fun c => c.iccid) with
    | none => simp only [hfresh] at hok; cases hok
    | some newIccid =>
      simp only [hfresh] at hok ⊢
      cases hrw : runWrites st
          (Write.card (cloneCard src newId newIccid opts time) ::
            cloneWrites st srcId newId opts idBase) fault with
      | error e => simp only [hrw] at hok; cases hok
      | ok st1 =>
        simp only [hrw]
        have hst1 := runWrites_ok _ _ _ _ hrw
        obtain ⟨h1, _, _⟩ :=
          foldl_applyWrite
            (Write.card (cloneCard src newId newIccid opts time) ::
              cloneWrites st srcId newId opts idBase) st
        rw [← hst1] at h1
        rw [writesCards_cons_card, writesCards_cloneWrites] at h1
        obtain ⟨hnotmem, k, hk⟩ := freshIccid_spec _ _ _ _ hfresh
        intro nc hnc
        rw [newCards, h1, List.drop_left] at hnc
        have hnc2 : nc = cloneCard src newId newIccid opts time := by
          simpa using hnc
        subst hnc2
        have hiccid : (cloneCard src newId newIccid opts time).iccid = newIccid := rfl
        rw [hiccid]
        subst hk
        refine ⟨luhnValid_append_check _, ?_, ?_⟩
        · have hlen7 : (src.iccid.take 7).length = 7 := by
            rw [List.length_take]
            omega
          rw [candidateIccid, List.append_assoc, List.take_append_of_le_length
            (by omega), List.take_of_length_le (by omega)]
        · intro hcontra
          apply hnotmem
          rw [hcontra]
          exact List.mem_map_of_mem (fun c => c.iccid)
            (List.mem_of_find?_eq_some hsrc)

end Engine

namespace Engine

/-- Clone options used by the concrete clone witness. -/
def witnessOpts : CloneOpts :=
  { copyContacts := true, copySMS := true, copySettings := false }

/-- The new ICCID the concrete clone witness derives. -/
def witnessNewIccid : List Nat :=
  candidateIccid (testCard.iccid.take 7) (testCard.iccid.length - 8) 0

/-- The card the concrete clone witness produces. -/
def witnessNewCard : Card :=
  cloneCard testCard "c2" witnessNewIccid witnessOpts 1

/-- Witness for C5: a concrete successful clone of `testCard`
produces a card whose ICCID is Luhn-valid, shares the 7-digit issuer
prefix and differs from the source ICCID. -/
theorem clone_luhn_valid_witness :
    luhnValid witnessNewCard.iccid = true ∧
    witnessNewCard.iccid.take 7 = testCard.iccid.take 7 ∧
    witnessNewCard.iccid ≠ testCard.iccid :=
  clone_luhn_valid testState "c1" witnessOpts "c2" 100 none 1 testCard
    { newCardId := "c2", contactsCloned := 0, smsCloned := 0 }
    (by decide) rfl witnessNewCard (by decide)

end Engine

namespace CloneTool

/-- C7 counterexample: the concrete request body built by `startClone`
does not carry the spec-named keys `copy_contacts`/`copy_sms`/
`copy_settings`, and the response field `new_card_id` is not among
the fields the completion screen reads. -/
theorem clone_interface_keys_counterexample :
    ((startCloneBody "card-1"
        { clone_contacts := true, clone_sms := true, clone_settings := true }).map
          Prod.fst ≠
      ["source_card_id", "copy_contacts", "copy_sms", "copy_settings"]) ∧
    "new_card_id" ∉ cloneResultFieldsRead := by
  decide

/-- C7 (amended): every clone request built by the clone tool is the
object with keys `source_card_id`, `clone_contacts`, `clone_sms`,
`clone_settings`, and the clone response is read through the fields
`cloned_card_id`, `contacts_cloned`, `sms_cloned`. -/
theorem clone_interface_keys (sourceCard : String) (o : CloneOptions) :
    (startCloneBody sourceCard o).map Prod.fst =
      ["source_card_id", "clone_contacts", "clone_sms", "clone_settings"] ∧
    cloneResultFieldsRead = ["cloned_card_id", "contacts_cloned", "sms_cloned"] :=
  ⟨rfl, rfl⟩

end CloneTool

namespace SMSManager

lemma includes_nil (s : List Char) : includes s [] = true := by
  cases s <;> simp [includes, startsWith, List.isEmpty]

lemma matchesSearch_nil (m : Msg) : matchesSearch [] m = true := by
  simp [matchesSearch, toLowerStr, includes_nil]

/-- C10: with an empty search query, the inbox tab shows exactly the
messages whose status is `read`; an `unread` message is excluded from
the inbox, sent and draft tabs and appears under the `all` tab. -/
theorem inbox_filter_spec (messages : List Msg) :
    filteredMessages messages [] "inbox" =
      messages.filter (fun m => m.status == "read") ∧
    ∀ m ∈ messages, m.status = "unread" →
      (m ∉ filteredMessages messages [] "inbox" ∧
       m ∉ filteredMessages messages [] "sent" ∧
       m ∉ filteredMessages messages [] "draft" ∧
       m ∈ filteredMessages messages [] "all") := by
  constructor
  · apply List.filter_congr
    intro m _
    simp [matchesSearch_nil, matchesTab]
  · intro m hm hstatus
    refine ⟨?_, ?_, ?_, ?_⟩ <;>
      simp [filteredMessages, List.mem_filter, matchesSearch_nil, matchesTab,
        hm, hstatus]

/-- A concrete unread message for the C10 witness. -/
def testMsgUnread : Msg :=
  { id := 1
    sender := ['+', '1']
    recipient := ['M', 'E']
    message := ['h', 'i']
    status := "unread" }

/-- Witness for C10: the concrete unread message is excluded from the
inbox, sent and draft tabs and shown under the all tab. -/
theorem inbox_filter_spec_witness :
    testMsgUnread ∉ filteredMessages [testMsgUnread] [] "inbox" ∧
    testMsgUnread ∉ filteredMessages [testMsgUnread] [] "sent" ∧
    testMsgUnread ∉ filteredMessages [testMsgUnread] [] "draft" ∧
    testMsgUnread ∈ filteredMessages [testMsgUnread] [] "all" :=
  (inbox_filter_spec [testMsgUnread]).2 testMsgUnread (by decide) rfl

end SMSManager

namespace HexViewer

lemma rowsFrom_length : ∀ (fuel : Nat) (data : List Char), data.length ≤ fuel →
    ∀ i, (rowsFrom fuel i data).length = (data.length + 15) / 16 := by
  intro fuel
  induction fuel with
  | zero =>
    intro data h i
    have hdata : data = [] := List.eq_nil_of_length_eq_zero (by omega)
    subst hdata
    rfl
  | succ n ih =>
    intro data h i
    cases data with
    | nil => rfl
    | cons c cs =>
      show (mkRow i ((c :: cs).take 16) ::
        rowsFrom n (i + 16) ((c :: cs).drop 16)).length = _
      have hdrop : ((c :: cs).drop 16).length = (c :: cs).length - 16 :=
        List.length_drop 16 (c :: cs)
      rw [List.length_cons,
        ih ((c :: cs).drop 16) (by rw [hdrop]; simp at h ⊢; omega) (i + 16), hdrop]
      simp only [List.length_cons] at h ⊢
      omega

lemma rowsFrom_get : ∀ (fuel : Nat) (data : List Char), data.length ≤ fuel →
    ∀ i k (hk : k < (rowsFrom fuel i data).length),
      (rowsFrom fuel i data).get ⟨k, hk⟩ =
        mkRow (i + 16 * k) ((data.drop (16 * k)).take 16) := by
  intro fuel
  induction fuel with
  | zero =>
    intro data h i k hk
    have hdata : data = [] := List.eq_nil_of_length_eq_zero (by omega)
    subst hdata
    simp [rowsFrom] at hk
  | succ n ih =>
    intro data h i k hk
    cases data with
    | nil => simp [rowsFrom] at hk
    | cons c cs =>
      rcases k with _ | k
      · show (mkRow i ((c :: cs).take 16) ::
          rowsFrom n (i + 16) ((c :: cs).drop 16)).get ⟨0, hk⟩ = _
        norm_num [List.get]
      · have hk2 : k < (rowsFrom n (i + 16) ((c :: cs).drop 16)).length := by
          simpa [rowsFrom] using hk
        have hstep : (rowsFrom (n + 1) i (c :: cs)).get ⟨k + 1, hk⟩ =
            (rowsFrom n (i + 16) ((c :: cs).drop 16)).get ⟨k, hk2⟩ := rfl
        have hdrop : ((c :: cs).drop 16).length = (c :: cs).length - 16 :=
          List.length_drop 16 (c :: cs)
        rw [hstep, ih ((c :: cs).drop 16)
          (by rw [hdrop]; simp only [List.length_cons] at h ⊢; omega) (i + 16) k hk2]
        rw [List.drop_drop]
        have h1 : i + 16 + 16 * k = i + 16 * (k + 1) := by ring
        have h2 : 16 + 16 * k = 16 * (k + 1) := by ring
        rw [h1, h2]

lemma padStart_length (len : Nat) (c : Char) (s : List Char) :
    (padStart len c s).length = max len s.length := by
  simp [padStart]
  omega

lemma natToHex_length_le_two (n : Nat) (h : n < 256) :
    (natToHex n).length ≤ 2 := by
  by_cases h16 : n < 16
  · show (natToHexAux (n + 1) n).length ≤ 2
    rw [natToHexAux, if_pos h16]
    simp
  · show (natToHexAux (n + 1) n).length ≤ 2
    rw [natToHexAux, if_neg h16]
    have hdiv : n / 16 < 16 := by omega
    obtain ⟨m, rfl⟩ : ∃ m, n = m + 1 := ⟨n - 1, by omega⟩
    rw [natToHexAux, if_pos hdiv]
    simp

/-- C9 counterexample: for the one-character input with char code 256
the single row's hex column holds the three-character entry `100`,
so the hex column is not made of 2-digit entries for every input. -/
theorem hexViewer_two_digit_counterexample :
    ((rows [Char.ofNat 256]).map (fun r => r.hex)) =
      [padEnd 47 ' ' ['1', '0', '0']] ∧
    (['1', '0', '0'] : List Char).length ≠ 2 := by
  decide

/-- C9 (amended): for an input of length `n`, HexViewer renders
`⌈n/16⌉` rows; row `k` covers characters `16*k`–`16*k+15`; its offset
column is `16*k` in uppercase hexadecimal zero-padded to a minimum
width of 8; its hex column is the uppercase hexadecimal char code of
each covered character zero-padded to a minimum width of 2 (exactly 2
digits for char codes below 256), joined by single spaces and padded
to width 47; its ASCII column keeps each character with char code in
`[32, 126]` and renders every other character as a dot. -/
theorem hexViewer_rows_spec (data : List Char) :
    (rows data).length = (data.length + 15) / 16 ∧
    ∀ k (hk : k < (rows data).length),
      (rows data).get ⟨k, hk⟩ =
        { offset := padStart 8 '0' (natToHex (16 * k))
          hex := padEnd 47 ' ' (joinSep [' ']
            (((data.drop (16 * k)).take 16).map
              (fun c => padStart 2 '0' (natToHex c.toNat))))
          ascii := ((data.drop (16 * k)).take 16).map asciiDot } ∧
      ∀ c ∈ (data.drop (16 * k)).take 16, c.toNat < 256 →
        (padStart 2 '0' (natToHex c.toNat)).length = 2 := by
  refine ⟨rowsFrom_length data.length data le_rfl 0, ?_⟩
  intro k hk
  constructor
  · refine Eq.trans (rowsFrom_get data.length data le_rfl 0 k hk) ?_
    simp [mkRow, toHex]
  · intro c _ hc
    rw [padStart_length]
    have := natToHex_length_le_two c.toNat hc
    omega

/-- Witness for C9: the amended row description instantiated on the
concrete input `AB` at row 0. -/
theorem hexViewer_rows_spec_witness :
    (rows ['A', 'B']).get ⟨0, by decide⟩ =
      { offset := padStart 8 '0' (natToHex 0)
        hex := padEnd 47 ' ' (joinSep [' ']
          (((['A', 'B'].drop 0).take 16).map
            (fun c => padStart 2 '0' (natToHex c.toNat))))
        ascii := ((['A', 'B'].drop 0).take 16).map asciiDot } ∧
    ∀ c ∈ (['A', 'B'].drop 0).take 16, c.toNat < 256 →
      (padStart 2 '0' (natToHex c.toNat)).length = 2 := by
  have h := (hexViewer_rows_spec ['A', 'B']).2 0 (by decide)
  simpa using h

end HexViewer
